import Mathlib

/-!
Verification development for the chunked-upload / assembly / transcode /
range-streaming core of the repository (backend/fastapi_app/main.py,
backend/video_processing/video_processor.py, backend/media_preview/views.py,
backend/users/models.py).

Bytes are modelled as natural numbers, chunk blobs and file contents as lists
of bytes, database tables as lists of records, and the side effects of
`complete_upload` and `process_video_background` as explicit operation traces
interpreted over an explicit system state.
-/

namespace Tat1

/-- Model of the Django `ChunkedUpload` row (storage/models.py) together with
the on-disk chunk blob it points at: `data` is the content of `chunk.file`
and `fileExists` records whether `os.path.exists(chunk.file)` holds. -/
structure ChunkRecord where
  chunk_number : Nat
  total_chunks : Nat
  total_size : Nat
  data : List Nat
  fileExists : Bool
deriving Repr, DecidableEq

/-- Comparison used by `.order_by('chunk_number')`. -/
def chunkLe (a b : ChunkRecord) : Prop := a.chunk_number ≤ b.chunk_number

instance : DecidableRel chunkLe := fun a b => Nat.decLe a.chunk_number b.chunk_number

instance : IsTotal ChunkRecord chunkLe := ⟨fun a b => Nat.le_total a.chunk_number b.chunk_number⟩

instance : IsTrans ChunkRecord chunkLe := ⟨fun _ _ _ h1 h2 => Nat.le_trans h1 h2⟩

/-- Model of `get_chunks_for_upload` (main.py): the `ChunkedUpload` rows for the
identity, sorted by `chunk_number`. The unsorted list `tbl` is the table in
arrival order. -/
def get_chunks_for_upload (tbl : List ChunkRecord) : List ChunkRecord :=
  List.insertionSort chunkLe tbl

/-- Model of the inner read loop of `complete_upload`: read a chunk file in
1MB buffers until EOF (`chunk_file.read(1024 * 1024)`), concatenating the
buffers into the merged file. -/
def readWhole (c : List Nat) : List Nat :=
  if h : c = [] then []
  else c.take (1024 * 1024) ++ readWhole (c.drop (1024 * 1024))
termination_by c.length
decreasing_by
  simp only [List.length_drop]
  have hp : 0 < c.length := List.length_pos.mpr h
  omega

/-- The merged temporary file content: the chunk files, in the order the sorted
record list presents them, each read to EOF. -/
def mergeChunks : List ChunkRecord → List Nat
  | [] => []
  | c :: rest => readWhole c.data ++ mergeChunks rest

/-- Direct concatenation of the stored chunk blobs, for stating results. -/
def concatData : List ChunkRecord → List Nat
  | [] => []
  | c :: rest => c.data ++ concatData rest

/-- Model of the `File` row created by `create_final_file_with_video_processing`
restricted to the fields the claims mention. -/
structure Artifact where
  name : String
  size : Nat
deriving Repr, DecidableEq

/-- A raised `HTTPException`: its status code and the chunk index its detail
message names, if any (only `"Chunk file missing: {chunk.chunk_number}"`
names one). -/
structure RaisedErr where
  status : Nat
  namedChunk : Option Nat
deriving Repr, DecidableEq

/-- Model of `complete_upload`'s outer `except Exception` handler, which
re-raises every exception — `HTTPException` included, since the endpoint has
no `except HTTPException: raise` clause — as
`HTTPException(500, "Error completing upload: ...")`. The original detail
string (and any chunk index inside it) survives inside the wrapped message. -/
def wrapOuter (e : RaisedErr) : RaisedErr := ⟨500, e.namedChunk⟩

/-- Outcome of one `complete_upload` call: the HTTP-visible result. -/
inductive CompleteResult where
  | ok (a : Artifact) (totalBytes : Nat)
  | incomplete (uploaded total : Nat)
  | err (e : RaisedErr)
deriving Repr, DecidableEq

/-- HTTP status code of a `complete_upload` outcome: the success
`JSONResponse` is 200, the "Not all chunks are uploaded yet" `JSONResponse`
is 400, and a raised error carries its own status. -/
def statusOf : CompleteResult → Nat
  | .ok _ _ => 200
  | .incomplete _ _ => 400
  | .err e => e.status

/-- The chunk index named in the outcome's error message, if any. The
incomplete response body carries only the counts `uploaded` and `total`. -/
def namedIndex : CompleteResult → Option Nat
  | .err e => e.namedChunk
  | _ => none

/-- Model of `User.update_storage_used` (users/models.py): subtraction is
clamped at zero, addition is unclamped. -/
def update_storage_used (storage_used : Int) (file_size : Int) (subtract : Bool) : Int :=
  if subtract then max 0 (storage_used - file_size) else storage_used + file_size

/-- One externally visible state-changing operation performed by
`complete_upload`, in program order. Each is an independent database or
filesystem action; the code wraps none of them in a transaction
(`django.db.transaction` is imported in main.py but never used). -/
inductive DbOp where
  | createTemp
  | removeTemp
  | moveTempToFinal (content : List Nat)
  | createArtifact (a : Artifact)
  | addStorage (n : Nat)
  | removeChunkFile (i : Nat)
  | deleteChunkRecord (i : Nat)
deriving Repr, DecidableEq

/-- Durable system state touched by `complete_upload`. -/
structure SysState where
  tempExists : Bool
  finalFile : Option (List Nat)
  artifact : Option Artifact
  storageUsed : Int
  chunks : List ChunkRecord
deriving Repr, DecidableEq

/-- Interpretation of one operation. `removeChunkFile` is `os.remove` on the
chunk blob (marks the file gone), `deleteChunkRecord` is `chunk.delete()`. -/
def applyOp (s : SysState) : DbOp → SysState
  | .createTemp => { s with tempExists := true }
  | .removeTemp => { s with tempExists := false }
  | .moveTempToFinal c => { s with tempExists := false, finalFile := some c }
  | .createArtifact a => { s with artifact := some a }
  | .addStorage n => { s with storageUsed := update_storage_used s.storageUsed (n : Int) false }
  | .removeChunkFile i =>
      let upd := fun c : ChunkRecord =>
        if c.chunk_number = i then { c with fileExists := false } else c
      { s with chunks := s.chunks.map upd }
  | .deleteChunkRecord i =>
      { s with chunks := s.chunks.filter (fun c => c.chunk_number ≠ i) }

def runOps (s : SysState) (ops : List DbOp) : SysState := ops.foldl applyOp s

def initState (storage : Int) (tbl : List ChunkRecord) : SysState :=
  ⟨false, none, none, storage, tbl⟩

/-- The per-chunk cleanup loop at the end of `complete_upload`:
`os.remove(chunk.file)` followed by `delete_chunk(chunk)` for each chunk in
sorted order. -/
def cleanupOps : List ChunkRecord → List DbOp
  | [] => []
  | c :: rest => .removeChunkFile c.chunk_number :: .deleteChunkRecord c.chunk_number :: cleanupOps rest

/-- Model of the `complete_upload` endpoint (main.py). Returns the
HTTP-visible outcome and the trace of state-changing operations performed, in
program order. Paths:
 - no rows: `HTTPException(400, "No chunks found")`, re-wrapped to 500 by the
   outer handler;
 - row count differs from `chunks[0].total_chunks`: the 400 `JSONResponse`
   with the counts (returned directly, so not re-wrapped);
 - a chunk file missing on disk: `HTTPException(500, "Chunk file missing: n")`
   raised mid-copy; the inner handler removes the temporary merged file and
   re-raises, the outer handler wraps to 500;
 - success: merge in sorted order, `shutil.move` to the final path, create the
   `File` row sized by the bytes actually written, add that size to the
   owner's storage counter, then remove each chunk file and row. -/
def complete_upload (filename : String) (tbl : List ChunkRecord) : CompleteResult × List DbOp :=
  match get_chunks_for_upload tbl with
  | [] => (.err (wrapOuter ⟨400, none⟩), [])
  | c0 :: rest =>
    if (c0 :: rest).length ≠ c0.total_chunks then
      (.incomplete (c0 :: rest).length c0.total_chunks, [])
    else
      match (c0 :: rest).find? (fun c => !c.fileExists) with
      | some cm => (.err (wrapOuter ⟨500, some cm.chunk_number⟩), [.createTemp, .removeTemp])
      | none =>
        let merged := mergeChunks (c0 :: rest)
        let art : Artifact := ⟨filename, merged.length⟩
        (.ok art merged.length,
          [.createTemp, .moveTempToFinal merged, .createArtifact art, .addStorage merged.length]
            ++ cleanupOps (c0 :: rest))

/-- A table state in which chunks 0..N-1 of an N-chunk upload have all been
stored (in any arrival order): every row declares N total chunks, every chunk
file is on disk, and the stored chunk numbers are exactly 0..N-1. -/
def ValidTable (tbl : List ChunkRecord) (N : Nat) : Prop :=
  0 < N ∧ (∀ c ∈ tbl, c.total_chunks = N ∧ c.fileExists = true) ∧
    (tbl.map ChunkRecord.chunk_number).Perm (List.range N)

instance (tbl : List ChunkRecord) (N : Nat) : Decidable (ValidTable tbl N) := by
  unfold ValidTable; infer_instance

/-! Transcode strategy (video_processing/video_processor.py). The ffprobe and
nvidia-smi results are inputs: `isH264` is `VideoProcessor.is_h264_already()`,
`info` is `GPUMonitor.get_nvidia_gpu_usage()` (`none` when no NVIDIA GPU or
nvidia-smi is unavailable), and `width`/`height` come from
`get_video_resolution`. The floating-point `memory_usage_percent`
comparison `used / total * 100 >= 85` is modelled by the exact rational
inequality `used * 100 >= 85 * total`; at the inputs used in the theorems
below the float computation is exact, so the decisions agree. -/

/-- One line of nvidia-smi output as parsed by `get_nvidia_gpu_usage`. -/
structure GpuInfo where
  name : String
  gpu_utilization : Nat
  memory_used_mb : Nat
  memory_total_mb : Nat
deriving Repr, DecidableEq

/-- Model of `GPUMonitor.should_use_gpu` with the default thresholds
(`gpu_threshold_util=80`, `vram_threshold=85`): true iff some device has
utilization strictly below 80 and memory usage percent strictly below 85. -/
def should_use_gpu (info : Option (List GpuInfo)) : Bool :=
  match info with
  | none => false
  | some gpus =>
      gpus.any (fun g =>
        decide (g.gpu_utilization < 80) && decide (g.memory_used_mb * 100 < 85 * g.memory_total_mb))

/-- Model of `VideoProcessor.estimate_vram_usage` (MB by resolution tier). -/
def estimate_vram_usage (width height : Nat) : Nat :=
  if width * height ≤ 1920 * 1080 then 200
  else if width * height ≤ 2560 * 1440 then 350
  else if width * height ≤ 3840 * 2160 then 500
  else 800

inductive Strategy where
  | skip
  | gpu (deviceIndex : Nat)
  | cpu
deriving Repr, DecidableEq

/-- The device-selection loop of `VideoProcessor.process_video`: the first
device whose free VRAM (`memory_total_mb - memory_used_mb`) is at least the
estimate. The loop does not re-check that device's utilization. -/
def firstGpuWithVram (gpus : List GpuInfo) (est : Nat) : Option Nat :=
  gpus.findIdx? (fun g =>
    decide ((est : Int) ≤ (g.memory_total_mb : Int) - (g.memory_used_mb : Int)))

/-- The strategy actually chosen by `VideoProcessor.process_video`: copy
without re-encode when the probe reports h264; otherwise, if
`should_use_gpu` passes, encode on the first device with enough free VRAM
(falling back to CPU when none has enough); otherwise CPU. Encoder
invocations are assumed to succeed (encoder failure is an external-process
outcome outside this decision). -/
def process_video_strategy (isH264 : Bool) (info : Option (List GpuInfo))
    (width height : Nat) : Strategy :=
  if isH264 then .skip
  else if should_use_gpu info then
    match info with
    | some gpus =>
        match firstGpuWithVram gpus (estimate_vram_usage width height) with
        | some i => .gpu i
        | none => .cpu
    | none => .cpu
  else .cpu

/-- Modelled from the claim's words, for comparison with
`process_video_strategy`: skip exactly on the target codec; otherwise encode
on the first device whose utilization is below the 80 threshold and whose
free memory strictly exceeds the resolution-tier estimate; CPU whenever no
device satisfies both conditions or no GPU is present. -/
def decideStrategy_specClaim (isH264 : Bool) (info : Option (List GpuInfo))
    (width height : Nat) : Strategy :=
  if isH264 then .skip
  else
    match info with
    | none => .cpu
    | some gpus =>
        match gpus.findIdx? (fun g =>
            decide (g.gpu_utilization < 80) &&
            decide ((estimate_vram_usage width height : Int) <
              (g.memory_total_mb : Int) - (g.memory_used_mb : Int))) with
        | some i => .gpu i
        | none => .cpu

/-- The corrected description of the decision, written independently of
`process_video_strategy`: the utilization/memory-percent gate asks only
whether SOME device is below both thresholds, and the encode device is then
chosen by free VRAM alone. -/
def decideStrategy_amended (isH264 : Bool) (info : Option (List GpuInfo))
    (width height : Nat) : Strategy :=
  if isH264 then .skip
  else
    match info with
    | none => .cpu
    | some gpus =>
        if gpus.any (fun g =>
            decide (g.gpu_utilization < 80) &&
            decide (g.memory_used_mb * 100 < 85 * g.memory_total_mb)) then
          match gpus.findIdx? (fun g =>
              decide ((estimate_vram_usage width height : Int) ≤
                (g.memory_total_mb : Int) - (g.memory_used_mb : Int))) with
          | some i => .gpu i
          | none => .cpu
        else .cpu

/-! Post-encode swap (`process_video_background` in main.py). The filesystem
is an association list from paths to content identifiers; the `File` row and
the owner's storage counter are carried alongside. -/

/-- The `File` row fields `process_video_background` reads and writes. -/
structure FileRec where
  name : String
  path : String
  size : Int
  content_type : String
deriving Repr, DecidableEq

structure VideoState where
  fs : List (String × Nat)
  filerec : FileRec
  storageUsed : Int
deriving Repr, DecidableEq

def fsLookup (fs : List (String × Nat)) (p : String) : Option Nat :=
  (fs.find? (fun e => decide (e.1 = p))).map (fun e => e.2)

def fsRemove (fs : List (String × Nat)) (p : String) : List (String × Nat) :=
  fs.filter (fun e => decide (e.1 ≠ p))

/-- Filesystem / database operations performed by `process_video_background`
after the encoder returns, in program order. -/
inductive VOp where
  | removeFile (p : String)
  | renameFile (src dst : String)
  | saveRecord (path : String) (size : Int) (ct : String)
  | adjStorage (diff : Int)
deriving Repr, DecidableEq

/-- Interpretation of one operation. `removeFile` models the guarded
`if os.path.exists(p): os.remove(p)` (removing an absent path is a no-op);
`renameFile` is `os.rename`; `saveRecord` is the `file_obj.save()` after the
path, size and content-type fields were assigned; `adjStorage` is
`if size_diff != 0: user.update_storage_used(abs(size_diff), subtract=(size_diff < 0))`. -/
def applyVOp (s : VideoState) : VOp → VideoState
  | .removeFile p => { s with fs := fsRemove s.fs p }
  | .renameFile src dst =>
      match fsLookup s.fs src with
      | none => s
      | some c => { s with fs := (dst, c) :: fsRemove (fsRemove s.fs src) dst }
  | .saveRecord p sz ct =>
      { s with filerec := { s.filerec with path := p, size := sz, content_type := ct } }
  | .adjStorage d =>
      if d = 0 then s
      else { s with storageUsed := update_storage_used s.storageUsed (abs d) (decide (d < 0)) }

def runVOps (s : VideoState) (ops : List VOp) : VideoState := ops.foldl applyVOp s

/-- Operation trace of `process_video_background` once the encoder has
returned. `success` is `success and os.path.exists(temp_output_path)`. On
success the code removes the original file, renames the temporary output to
the final path, saves the updated row, and adjusts the storage counter by
the size delta; on failure it removes the temporary output and touches
nothing else. (When the probe already reports h264 the function returns
before producing any of these operations.) -/
def process_video_background_ops (success : Bool)
    (origPath tempPath finalPath : String) (newSize : Int) (origSize : Int) : List VOp :=
  if success then
    [.removeFile origPath,
     .renameFile tempPath finalPath,
     .saveRecord finalPath newSize "video/mp4",
     .adjStorage (newSize - origSize)]
  else
    [.removeFile tempPath]

/-! Range streaming (`VideoStreamingViewSet.create_streaming_response` in
media_preview/views.py). Python integers are modelled as `Int` where the code
can produce negative values (`end`, `remaining`, `Content-Length`). -/

/-- The full-file iterator: `f.read(65536)` until EOF. -/
def readFull (c : List Nat) : List Nat :=
  if h : c = [] then []
  else c.take 65536 ++ readFull (c.drop 65536)
termination_by c.length
decreasing_by
  simp only [List.length_drop]
  have hp : 0 < c.length := List.length_pos.mpr h
  omega

/-- The range iterator's read loop: after `f.seek(start)`,
`remaining = end - start + 1`, `chunk_size = min(65536, remaining)`, then
`f.read(min(chunk_size, remaining))` repeatedly while `remaining > 0`,
breaking on an empty read and decrementing `remaining` by the bytes read.
`pos` is the file-pointer position. -/
def readWindow (content : List Nat) (cs : Int) (pos : Nat) (rem : Int) : List Nat :=
  if h1 : rem ≤ 0 then []
  else
    if h2 : ((content.drop pos).take (min cs rem).toNat) = [] then []
    else
      ((content.drop pos).take (min cs rem).toNat) ++
        readWindow content cs (pos + ((content.drop pos).take (min cs rem).toNat).length)
          (rem - (((content.drop pos).take (min cs rem).toNat).length : Int))
termination_by rem.toNat
decreasing_by
  have hlen : 0 < ((content.drop pos).take (min cs rem).toNat).length :=
    List.length_pos.mpr h2
  omega

/-- The parsed `Range` header: absent, present but not matching
`bytes=(\d+)-(\d*)`, or the two regex groups (the second may be empty). -/
inductive RangeHeader where
  | absent
  | malformed
  | okRange (start : Nat) (endGroup : Option Nat)
deriving Repr, DecidableEq

/-- The headers and body of the constructed `StreamingHttpResponse`.
`contentRange` holds the three numbers rendered into
`Content-Range: bytes start-end/size` when that header is set. -/
structure StreamResponse where
  status : Nat
  contentRange : Option (Nat × Int × Nat)
  contentLength : Int
  body : List Nat
  acceptRanges : Bool
deriving Repr, DecidableEq

/-- Either a streaming response or a raised `Http404`. -/
inductive RangeResult where
  | resp (r : StreamResponse)
  | http404 (msg : String)
deriving Repr, DecidableEq

/-- Model of `create_streaming_response`: no header streams the whole file
with status 200; a non-matching header raises `Http404("Invalid range")`; a
matching header takes `start` from group 1, `end` from group 2 (defaulting to
`file_size - 1`), clamps `end` to `file_size - 1`, and answers 206 with
`Content-Range: bytes start-end/file_size`, `Content-Length = end - start + 1`
and the windowed body. -/
def create_streaming_response (content : List Nat) (h : RangeHeader) : RangeResult :=
  match h with
  | .absent => .resp ⟨200, none, (content.length : Int), readFull content, true⟩
  | .malformed => .http404 "Invalid range"
  | .okRange start endGroup =>
      let file_size := content.length
      let e0 : Int := match endGroup with
        | some e => (e : Int)
        | none => (file_size : Int) - 1
      let e : Int := min e0 ((file_size : Int) - 1)
      let rem : Int := e - (start : Int) + 1
      .resp ⟨206, some (start, e, file_size), rem,
        readWindow content (min 65536 rem) start rem, true⟩

/-! Helper lemmas. -/

theorem readWhole_eq (c : List Nat) : readWhole c = c := by
  rw [readWhole]
  split
  · rename_i h; rw [h]
  · rw [readWhole_eq (c.drop (1024 * 1024))]
    exact List.take_append_drop _ _
termination_by c.length
decreasing_by
  simp only [List.length_drop]
  rename_i h
  have hp : 0 < c.length := List.length_pos.mpr h
  omega

theorem mergeChunks_eq_concatData (l : List ChunkRecord) : mergeChunks l = concatData l := by
  induction l with
  | nil => rfl
  | cons c rest ih => simp [mergeChunks, concatData, readWhole_eq, ih]

theorem concatData_length (l : List ChunkRecord) :
    (concatData l).length = (l.map (fun c => c.data.length)).sum := by
  induction l with
  | nil => rfl
  | cons c rest ih => simp [concatData, ih]

theorem get_chunks_perm (tbl : List ChunkRecord) :
    (get_chunks_for_upload tbl).Perm tbl :=
  List.perm_insertionSort chunkLe tbl

theorem get_chunks_key_sorted (tbl : List ChunkRecord) :
    ((get_chunks_for_upload tbl).map ChunkRecord.chunk_number).Sorted (fun a b => a ≤ b) := by
  have h := List.sorted_insertionSort chunkLe tbl
  exact List.pairwise_map.mpr h

theorem key_map_eq_range (tbl : List ChunkRecord) (N : Nat) (h : ValidTable tbl N) :
    (get_chunks_for_upload tbl).map ChunkRecord.chunk_number = List.range N := by
  obtain ⟨hN, hall, hperm⟩ := h
  have hps : (get_chunks_for_upload tbl).Perm tbl := get_chunks_perm tbl
  have hmap : ((get_chunks_for_upload tbl).map ChunkRecord.chunk_number).Perm (List.range N) :=
    (hps.map ChunkRecord.chunk_number).trans hperm
  have hnd : ((get_chunks_for_upload tbl).map ChunkRecord.chunk_number).Nodup :=
    hmap.nodup_iff.mpr (List.nodup_range N)
  have hlt : ((get_chunks_for_upload tbl).map ChunkRecord.chunk_number).Sorted (fun a b => a < b) :=
    List.Sorted.lt_of_le (get_chunks_key_sorted tbl) hnd
  haveI : IsAntisymm Nat (fun a b => a < b) := ⟨fun a b h1 h2 => absurd h2 (Nat.lt_asymm h1)⟩
  exact List.eq_of_perm_of_sorted hmap hlt (List.sorted_lt_range N)

theorem complete_upload_valid (fn : String) (tbl : List ChunkRecord) (N : Nat)
    (h : ValidTable tbl N) :
    complete_upload fn tbl =
      (CompleteResult.ok ⟨fn, (concatData (get_chunks_for_upload tbl)).length⟩
          (concatData (get_chunks_for_upload tbl)).length,
        DbOp.createTemp ::
          DbOp.moveTempToFinal (concatData (get_chunks_for_upload tbl)) ::
          DbOp.createArtifact ⟨fn, (concatData (get_chunks_for_upload tbl)).length⟩ ::
          DbOp.addStorage (concatData (get_chunks_for_upload tbl)).length ::
          cleanupOps (get_chunks_for_upload tbl)) := by
  have hkey := key_map_eq_range tbl N h
  have hps := get_chunks_perm tbl
  obtain ⟨hN, hall, hperm⟩ := h
  cases hs : get_chunks_for_upload tbl with
  | nil =>
      rw [hs] at hkey
      have : N = 0 := by
        have := congrArg List.length hkey
        simpa using this.symm
      omega
  | cons c0 rest =>
      rw [hs] at hkey hps
      have hlen : (c0 :: rest).length = N := by
        have := congrArg List.length hkey
        simpa using this
      have hc0 : c0.total_chunks = N := by
        have hmem : c0 ∈ tbl := hps.mem_iff.mp (List.mem_cons_self c0 rest)
        exact (hall c0 hmem).1
      have hfind : (c0 :: rest).find? (fun c => !c.fileExists) = none := by
        rw [List.find?_eq_none]
        intro x hx
        have hxt : x ∈ tbl := hps.mem_iff.mp hx
        simp [(hall x hxt).2]
      unfold complete_upload
      rw [hs]
      simp only [hlen, hc0, ne_eq, not_true_eq_false, if_false, ite_false, hfind,
        mergeChunks_eq_concatData]
      simp

theorem runOps_append (s : SysState) (a b : List DbOp) :
    runOps s (a ++ b) = runOps (runOps s a) b := by
  simp [runOps, List.foldl_append]

theorem filter_map_flag (cl : List ChunkRecord) (n : Nat) :
    ((cl.map (fun c => if c.chunk_number = n then { c with fileExists := false } else c)).filter
        (fun c => c.chunk_number ≠ n)) = cl.filter (fun c => c.chunk_number ≠ n) := by
  induction cl with
  | nil => rfl
  | cons c rest ih =>
      simp only [ne_eq, decide_not] at ih ⊢
      by_cases hc : c.chunk_number = n <;> simp [hc, ih]

/-- Boolean survival predicate of the cleanup loop: a record survives iff its
chunk number differs from every deleted record's chunk number. -/
def survives (l : List ChunkRecord) (c : ChunkRecord) : Bool :=
  (l.map ChunkRecord.chunk_number).all (fun i => c.chunk_number != i)

theorem runOps_cleanup (l : List ChunkRecord) (s : SysState) :
    runOps s (cleanupOps l) = { s with chunks := s.chunks.filter (survives l) } := by
  induction l generalizing s with
  | nil =>
      have hf : List.filter (survives []) s.chunks = s.chunks := by
        apply List.filter_eq_self.mpr
        intro a _
        simp [survives]
      simp [cleanupOps, runOps, hf]
  | cons c rest ih =>
      show runOps (applyOp (applyOp s (.removeChunkFile c.chunk_number))
          (.deleteChunkRecord c.chunk_number)) (cleanupOps rest) = _
      rw [ih]
      simp only [applyOp]
      rw [filter_map_flag, List.filter_filter]
      congr 1
      apply List.filter_congr
      intro a _
      simp [survives, bne, Bool.beq_eq_decide_eq, Bool.and_comm]

theorem runOps_cons (s : SysState) (x : DbOp) (xs : List DbOp) :
    runOps s (x :: xs) = runOps (applyOp s x) xs := rfl

theorem tbl_keys_covered (tbl : List ChunkRecord) (c : ChunkRecord) (hc : c ∈ tbl) :
    c.chunk_number ∈ (get_chunks_for_upload tbl).map ChunkRecord.chunk_number := by
  have h1 : c.chunk_number ∈ tbl.map ChunkRecord.chunk_number :=
    List.mem_map_of_mem ChunkRecord.chunk_number hc
  exact ((get_chunks_perm tbl).map ChunkRecord.chunk_number).mem_iff.mpr h1

theorem filter_survives_nil (tbl l : List ChunkRecord)
    (h : ∀ c ∈ tbl, c.chunk_number ∈ l.map ChunkRecord.chunk_number) :
    tbl.filter (survives l) = [] := by
  rw [List.filter_eq_nil_iff]
  intro a ha
  have hm := h a ha
  simp only [survives, List.all_eq_true, Bool.not_eq_true]
  intro hall
  have := hall a.chunk_number hm
  simp at this

theorem complete_upload_final_state (fn : String) (tbl : List ChunkRecord) (N : Nat) (u : Int)
    (h : ValidTable tbl N) :
    runOps (initState u tbl) (complete_upload fn tbl).2 =
      { tempExists := false,
        finalFile := some (concatData (get_chunks_for_upload tbl)),
        artifact := some ⟨fn, (concatData (get_chunks_for_upload tbl)).length⟩,
        storageUsed := u + ((concatData (get_chunks_for_upload tbl)).length : Int),
        chunks := [] } := by
  rw [complete_upload_valid fn tbl N h]
  rw [runOps_cons, runOps_cons, runOps_cons, runOps_cons, runOps_cleanup]
  have hnil : tbl.filter (survives (get_chunks_for_upload tbl)) = [] :=
    filter_survives_nil tbl (get_chunks_for_upload tbl) (fun c hc => tbl_keys_covered tbl c hc)
  simp [applyOp, initState, update_storage_used, hnil]

/-! Claim theorems. -/

/-- C1: for every valid identity and chunk count N, once chunks 0..N-1 are all
stored (in any arrival order), `complete_upload` succeeds, the artifact's byte
size equals the sum of the stored chunk sizes, and the final file's byte
content is the concatenation of the chunk files in ascending chunk_number
order (the records re-read sorted by chunk_number and appended in that
order). -/
theorem C1_assembled_artifact_is_ordered_concat (fn : String) (tbl : List ChunkRecord)
    (N : Nat) (u : Int) (h : ValidTable tbl N) :
    ∃ a : Artifact, ∃ s : List ChunkRecord,
      (complete_upload fn tbl).1 = CompleteResult.ok a a.size ∧
      a.size = (tbl.map (fun c => c.data.length)).sum ∧
      s.Perm tbl ∧
      s.map ChunkRecord.chunk_number = List.range N ∧
      (runOps (initState u tbl) (complete_upload fn tbl).2).finalFile = some (concatData s) ∧
      (concatData s).length = a.size := by
  refine ⟨⟨fn, (concatData (get_chunks_for_upload tbl)).length⟩, get_chunks_for_upload tbl,
    ?_, ?_, get_chunks_perm tbl, key_map_eq_range tbl N h, ?_, rfl⟩
  · rw [complete_upload_valid fn tbl N h]
  · show (concatData (get_chunks_for_upload tbl)).length = _
    rw [concatData_length]
    exact ((get_chunks_perm tbl).map (fun c => c.data.length)).sum_eq
  · rw [complete_upload_final_state fn tbl N u h]

/-- Witness for C1: a two-chunk upload whose records arrived out of order. -/
theorem C1_witness :
    ValidTable [⟨1, 2, 7, [9], true⟩, ⟨0, 2, 7, [5, 6], true⟩] 2 ∧
    (∃ a : Artifact, ∃ s : List ChunkRecord,
      (complete_upload "f" [⟨1, 2, 7, [9], true⟩, ⟨0, 2, 7, [5, 6], true⟩]).1 =
          CompleteResult.ok a a.size ∧
      a.size = (([⟨1, 2, 7, [9], true⟩, ⟨0, 2, 7, [5, 6], true⟩] : List ChunkRecord).map
          (fun c => c.data.length)).sum ∧
      s.Perm [⟨1, 2, 7, [9], true⟩, ⟨0, 2, 7, [5, 6], true⟩] ∧
      s.map ChunkRecord.chunk_number = List.range 2 ∧
      (runOps (initState 0 [⟨1, 2, 7, [9], true⟩, ⟨0, 2, 7, [5, 6], true⟩])
          (complete_upload "f" [⟨1, 2, 7, [9], true⟩, ⟨0, 2, 7, [5, 6], true⟩]).2).finalFile =
        some (concatData s) ∧
      (concatData s).length = a.size) :=
  ⟨by decide,
    C1_assembled_artifact_is_ordered_concat "f"
      [⟨1, 2, 7, [9], true⟩, ⟨0, 2, 7, [5, 6], true⟩] 2 0 (by decide)⟩

/-- C2 counterexample: a one-chunk upload whose record declares
`total_size = 100` while the stored chunk file holds 3 bytes. The assembled
byte count (3) differs from the declared total (100), yet `complete_upload`
succeeds with no size-mismatch error, refuting the claimed check. -/
theorem C2_counterexample :
    ([⟨0, 1, 100, [7, 7, 7], true⟩] : List ChunkRecord).map (fun c => c.total_size) = [100] ∧
    (complete_upload "f" [⟨0, 1, 100, [7, 7, 7], true⟩]).1 = CompleteResult.ok ⟨"f", 3⟩ 3 ∧
    (3 : Nat) ≠ 100 := by
  refine ⟨by decide, ?_, by decide⟩
  rw [complete_upload_valid "f" [⟨0, 1, 100, [7, 7, 7], true⟩] 1 (by decide)]
  decide

/-- C2 amended: the assembler records the byte count it computed during the
copy as the artifact size and never compares it with the declared
`total_size` (assembly succeeds for any declared total); when the copy fails
mid-way because a chunk file is missing, the temporary merged file is
discarded, no artifact is created, and the chunk records are retained. -/
theorem C2_amended_no_size_check_and_rollback :
    (∀ (fn : String) (tbl : List ChunkRecord) (N : Nat), ValidTable tbl N →
      (complete_upload fn tbl).1 =
        CompleteResult.ok ⟨fn, (concatData (get_chunks_for_upload tbl)).length⟩
          (concatData (get_chunks_for_upload tbl)).length) ∧
    (∀ (fn : String) (tbl : List ChunkRecord) (u : Int) (c0 cm : ChunkRecord)
        (rest : List ChunkRecord),
      get_chunks_for_upload tbl = c0 :: rest →
      (c0 :: rest).length = c0.total_chunks →
      (c0 :: rest).find? (fun c => !c.fileExists) = some cm →
      (complete_upload fn tbl).1 = CompleteResult.err ⟨500, some cm.chunk_number⟩ ∧
        runOps (initState u tbl) (complete_upload fn tbl).2 = initState u tbl) := by
  constructor
  · intro fn tbl N h
    rw [complete_upload_valid fn tbl N h]
  · intro fn tbl u c0 cm rest hs hlen hfind
    have hcu : complete_upload fn tbl =
        (.err ⟨500, some cm.chunk_number⟩, [.createTemp, .removeTemp]) := by
      unfold complete_upload
      rw [hs]
      simp [hlen, hfind, wrapOuter]
    rw [hcu]
    exact ⟨rfl, rfl⟩

/-- Witness for the amended C2: the success half at a valid table with a
mismatched declared total, and the rollback half at a table whose second
chunk file is missing on disk. -/
theorem C2_amended_witness :
    ValidTable [⟨0, 1, 100, [7, 7, 7], true⟩] 1 ∧
    (complete_upload "g" [⟨0, 1, 100, [7, 7, 7], true⟩]).1 =
      CompleteResult.ok
        ⟨"g", (concatData (get_chunks_for_upload [⟨0, 1, 100, [7, 7, 7], true⟩])).length⟩
        (concatData (get_chunks_for_upload [⟨0, 1, 100, [7, 7, 7], true⟩])).length ∧
    ((complete_upload "g" [⟨0, 2, 7, [5], true⟩, ⟨1, 2, 7, [9], false⟩]).1 =
        CompleteResult.err ⟨500, some 1⟩ ∧
      runOps (initState 4 [⟨0, 2, 7, [5], true⟩, ⟨1, 2, 7, [9], false⟩])
          (complete_upload "g" [⟨0, 2, 7, [5], true⟩, ⟨1, 2, 7, [9], false⟩]).2 =
        initState 4 [⟨0, 2, 7, [5], true⟩, ⟨1, 2, 7, [9], false⟩]) :=
  ⟨by decide,
    C2_amended_no_size_check_and_rollback.1 "g" [⟨0, 1, 100, [7, 7, 7], true⟩] 1 (by decide),
    C2_amended_no_size_check_and_rollback.2 "g" [⟨0, 2, 7, [5], true⟩, ⟨1, 2, 7, [9], false⟩] 4
      ⟨0, 2, 7, [5], true⟩ ⟨1, 2, 7, [9], false⟩ [⟨1, 2, 7, [9], false⟩]
      (by decide) (by decide) (by decide)⟩

/-- C3 counterexample: interrupting a successful `complete_upload` after its
third operation (the artifact-row creation) leaves the artifact record
created while every chunk record survives and the storage counter is still
unadjusted — the three effects are separate sequential operations, not one
all-or-nothing transaction. -/
theorem C3_counterexample :
    ((complete_upload "f" [⟨0, 1, 7, [1, 2, 3], true⟩]).2.take 3).length <
        (complete_upload "f" [⟨0, 1, 7, [1, 2, 3], true⟩]).2.length ∧
    (runOps (initState 5 [⟨0, 1, 7, [1, 2, 3], true⟩])
        ((complete_upload "f" [⟨0, 1, 7, [1, 2, 3], true⟩]).2.take 3)).artifact.isSome = true ∧
    (runOps (initState 5 [⟨0, 1, 7, [1, 2, 3], true⟩])
        ((complete_upload "f" [⟨0, 1, 7, [1, 2, 3], true⟩]).2.take 3)).chunks ≠ [] ∧
    (runOps (initState 5 [⟨0, 1, 7, [1, 2, 3], true⟩])
        ((complete_upload "f" [⟨0, 1, 7, [1, 2, 3], true⟩]).2.take 3)).storageUsed = 5 := by
  rw [complete_upload_valid "f" [⟨0, 1, 7, [1, 2, 3], true⟩] 1 (by decide)]
  decide

/-- C3 amended: a successful complete performs artifact creation, storage
increment and chunk-record deletion as separate sequential operations; when
the whole operation list runs uninterrupted, the final state has the
artifact record created, the owner's storage counter incremented by the
artifact size, and all chunk records deleted. -/
theorem C3_amended_sequential_effects (fn : String) (tbl : List ChunkRecord) (N : Nat)
    (u : Int) (h : ValidTable tbl N) :
    ∃ a : Artifact,
      (complete_upload fn tbl).1 = CompleteResult.ok a a.size ∧
      runOps (initState u tbl) (complete_upload fn tbl).2 =
        { tempExists := false,
          finalFile := some (concatData (get_chunks_for_upload tbl)),
          artifact := some a,
          storageUsed := u + (a.size : Int),
          chunks := [] } := by
  refine ⟨⟨fn, (concatData (get_chunks_for_upload tbl)).length⟩, ?_, ?_⟩
  · rw [complete_upload_valid fn tbl N h]
  · rw [complete_upload_final_state fn tbl N u h]

/-- Witness for the amended C3 at a concrete one-chunk upload. -/
theorem C3_amended_witness :
    ValidTable [⟨0, 1, 7, [1, 2, 3], true⟩] 1 ∧
    (∃ a : Artifact,
      (complete_upload "f" [⟨0, 1, 7, [1, 2, 3], true⟩]).1 = CompleteResult.ok a a.size ∧
      runOps (initState 5 [⟨0, 1, 7, [1, 2, 3], true⟩])
          (complete_upload "f" [⟨0, 1, 7, [1, 2, 3], true⟩]).2 =
        { tempExists := false,
          finalFile := some (concatData (get_chunks_for_upload [⟨0, 1, 7, [1, 2, 3], true⟩])),
          artifact := some a,
          storageUsed := 5 + (a.size : Int),
          chunks := [] }) :=
  ⟨by decide, C3_amended_sequential_effects "f" [⟨0, 1, 7, [1, 2, 3], true⟩] 1 5 (by decide)⟩

/-- C4 counterexample: with chunks 0 and 2 stored out of a declared 3,
`complete_upload` answers the 400 "Not all chunks are uploaded yet" response
carrying only the counts (uploaded 2, total 3); no error names the absent
index 1 (`namedIndex` is `none`), no artifact is created, and the chunk
records are untouched. -/
theorem C4_counterexample :
    (complete_upload "f" [⟨0, 3, 30, [1], true⟩, ⟨2, 3, 30, [3], true⟩]).1 =
        CompleteResult.incomplete 2 3 ∧
    namedIndex (complete_upload "f" [⟨0, 3, 30, [1], true⟩, ⟨2, 3, 30, [3], true⟩]).1 = none ∧
    runOps (initState 0 [⟨0, 3, 30, [1], true⟩, ⟨2, 3, 30, [3], true⟩])
        (complete_upload "f" [⟨0, 3, 30, [1], true⟩, ⟨2, 3, 30, [3], true⟩]).2 =
      initState 0 [⟨0, 3, 30, [1], true⟩, ⟨2, 3, 30, [3], true⟩] := by
  decide

/-- C4 amended: when the stored chunk rows do not number exactly
`totalChunks`, complete aborts with a 400 response reporting the uploaded
count and the declared total; the absent index is not named, no artifact is
created, and the chunk records are retained. -/
theorem C4_amended_count_only_abort (fn : String) (tbl : List ChunkRecord) (u : Int)
    (c0 : ChunkRecord) (rest : List ChunkRecord)
    (hs : get_chunks_for_upload tbl = c0 :: rest)
    (hne : (c0 :: rest).length ≠ c0.total_chunks) :
    (complete_upload fn tbl).1 = CompleteResult.incomplete tbl.length c0.total_chunks ∧
    statusOf (complete_upload fn tbl).1 = 400 ∧
    namedIndex (complete_upload fn tbl).1 = none ∧
    runOps (initState u tbl) (complete_upload fn tbl).2 = initState u tbl := by
  have hlen : (c0 :: rest).length = tbl.length := by
    have hp := (get_chunks_perm tbl).length_eq
    rw [hs] at hp
    exact hp
  have hcu : complete_upload fn tbl =
      (CompleteResult.incomplete tbl.length c0.total_chunks, []) := by
    unfold complete_upload
    rw [hs]
    simp [hne, hlen]
    intro hx
    exact absurd (hlen.trans hx) hne
  rw [hcu]
  exact ⟨rfl, rfl, rfl, rfl⟩

/-- Witness for the amended C4 at the claim's own example (chunks 0 and 2 of
3 present). -/
theorem C4_amended_witness :
    (complete_upload "f" [⟨0, 3, 30, [1], true⟩, ⟨2, 3, 30, [3], true⟩]).1 =
        CompleteResult.incomplete
          ([⟨0, 3, 30, [1], true⟩, ⟨2, 3, 30, [3], true⟩] : List ChunkRecord).length 3 ∧
    statusOf (complete_upload "f" [⟨0, 3, 30, [1], true⟩, ⟨2, 3, 30, [3], true⟩]).1 = 400 ∧
    namedIndex (complete_upload "f" [⟨0, 3, 30, [1], true⟩, ⟨2, 3, 30, [3], true⟩]).1 = none ∧
    runOps (initState 9 [⟨0, 3, 30, [1], true⟩, ⟨2, 3, 30, [3], true⟩])
        (complete_upload "f" [⟨0, 3, 30, [1], true⟩, ⟨2, 3, 30, [3], true⟩]).2 =
      initState 9 [⟨0, 3, 30, [1], true⟩, ⟨2, 3, 30, [3], true⟩] :=
  C4_amended_count_only_abort "f" [⟨0, 3, 30, [1], true⟩, ⟨2, 3, 30, [3], true⟩] 9
    ⟨0, 3, 30, [1], true⟩ [⟨2, 3, 30, [3], true⟩] (by decide) (by decide)

/-- C5: after a first `complete_upload` succeeds and deletes the chunk rows,
a second call finds no rows and raises `HTTPException(400, "No chunks found")`
— but the endpoint's blanket `except Exception` handler re-raises it as
`HTTPException(500, "Error completing upload: ...")`, so the client observes
a 500 server error, not the 4xx "not found" the claim states; no second
artifact is created (the second call performs no operations). The sibling
`upload_chunk` endpoint has the `except HTTPException: raise` passthrough
that `complete_upload` is missing. -/
theorem C5_second_complete_is_500 :
    (complete_upload "f" [⟨0, 1, 1, [9], true⟩]).1 =
        CompleteResult.ok ⟨"f", 1⟩ 1 ∧
    (runOps (initState 0 [⟨0, 1, 1, [9], true⟩])
        (complete_upload "f" [⟨0, 1, 1, [9], true⟩]).2).chunks = [] ∧
    statusOf (complete_upload "f"
        ((runOps (initState 0 [⟨0, 1, 1, [9], true⟩])
          (complete_upload "f" [⟨0, 1, 1, [9], true⟩]).2).chunks)).1 = 500 ∧
    ¬ statusOf (complete_upload "f"
        ((runOps (initState 0 [⟨0, 1, 1, [9], true⟩])
          (complete_upload "f" [⟨0, 1, 1, [9], true⟩]).2).chunks)).1 < 500 ∧
    (complete_upload "f"
        ((runOps (initState 0 [⟨0, 1, 1, [9], true⟩])
          (complete_upload "f" [⟨0, 1, 1, [9], true⟩]).2).chunks)).2 = [] := by
  rw [complete_upload_final_state "f" [⟨0, 1, 1, [9], true⟩] 1 0 (by decide)]
  rw [complete_upload_valid "f" [⟨0, 1, 1, [9], true⟩] 1 (by decide)]
  decide

/-- C6 counterexample: device 0 has utilization 95% (above the threshold) but
plenty of free VRAM; device 1 is idle. `should_use_gpu` passes because of
device 1, but the encode loop then picks device 0 — the first device with
enough free memory — without re-checking utilization, while the claim's
decision rule picks device 1. Also shown at the boundary: with free memory
exactly equal to the tier estimate the code still uses the GPU, while the
claim requires free memory to exceed the estimate. -/
theorem C6_counterexample :
    process_video_strategy false
        (some [⟨"A", 95, 0, 10000⟩, ⟨"B", 10, 0, 10000⟩]) 1920 1080 = Strategy.gpu 0 ∧
    decideStrategy_specClaim false
        (some [⟨"A", 95, 0, 10000⟩, ⟨"B", 10, 0, 10000⟩]) 1920 1080 = Strategy.gpu 1 ∧
    Strategy.gpu 0 ≠ Strategy.gpu 1 ∧
    process_video_strategy false (some [⟨"C", 10, 800, 1000⟩]) 1920 1080 = Strategy.gpu 0 ∧
    decideStrategy_specClaim false (some [⟨"C", 10, 800, 1000⟩]) 1920 1080 = Strategy.cpu := by
  decide

/-- C6 amended: skip exactly when the probe reports the target codec;
otherwise the GPU is considered only when some device has utilization below
80% and memory usage below 85%, and the encode device is then the first
device whose free VRAM is at least the resolution-tier estimate
(200/350/500/800 MB) — its utilization is not re-checked; CPU is chosen when
no device passes the utilization/memory gate, no device has enough free
VRAM, or no GPU is present. -/
theorem C6_amended_strategy (isH264 : Bool) (info : Option (List GpuInfo)) (w ht : Nat) :
    process_video_strategy isH264 info w ht = decideStrategy_amended isH264 info w ht ∧
    (process_video_strategy isH264 info w ht = Strategy.skip ↔ isH264 = true) := by
  cases isH264 with
  | true => simp [process_video_strategy, decideStrategy_amended]
  | false =>
      cases info with
      | none => simp [process_video_strategy, decideStrategy_amended, should_use_gpu]
      | some gpus =>
          constructor
          · simp only [process_video_strategy, decideStrategy_amended, should_use_gpu]
            rfl
          · simp only [process_video_strategy, Bool.false_eq_true, if_false, iff_false]
            intro hskip
            by_cases hg : should_use_gpu (some gpus) = true
            · rw [if_pos hg] at hskip
              cases hf : firstGpuWithVram gpus (estimate_vram_usage w ht) with
              | none => rw [hf] at hskip; exact Strategy.noConfusion hskip
              | some i => rw [hf] at hskip; exact Strategy.noConfusion hskip
            · rw [if_neg hg] at hskip
              exact Strategy.noConfusion hskip

/-- C7 counterexample: on the success path the very first filesystem
operation `process_video_background` performs is the deletion of the old
artifact file, at a moment when the final location still holds the old
content (id 0) and the newly encoded content (id 1) is still at the
temporary `_converting.mp4` path — the new file is not confirmed in its
final place before the old one is deleted. -/
theorem C7_counterexample :
    (process_video_background_ops true "m/video.avi" "m/video_converting.mp4"
        "m/video.avi" 600 1000).take 1 = [VOp.removeFile "m/video.avi"] ∧
    fsLookup [("m/video.avi", 0), ("m/video_converting.mp4", 1)] "m/video.avi" = some 0 ∧
    fsLookup [("m/video.avi", 0), ("m/video_converting.mp4", 1)] "m/video.avi" ≠ some 1 ∧
    fsLookup [("m/video.avi", 0), ("m/video_converting.mp4", 1)] "m/video_converting.mp4" =
      some 1 := by
  refine ⟨rfl, rfl, ?_, rfl⟩
  intro hcontra
  simp [fsLookup] at hcontra

/-- C7 amended: on success the old artifact file is deleted after the encoded
file is confirmed to exist at its temporary path but before the rename into
the final location (see the counterexample); once the swap completes, the
final path holds the new content, the temporary file is gone, the row
carries the new path, size and `video/mp4`, and the storage counter is
adjusted by the size delta. On failure the temporary output is deleted and
the original artifact — file, stored path, size and content type — is left
unchanged. -/
theorem runVOps_vcons (s : VideoState) (x : VOp) (xs : List VOp) :
    runVOps s (x :: xs) = runVOps (applyVOp s x) xs := rfl

theorem C7_amended_swap (orig temp nm ct : String) (hot : temp ≠ orig)
    (a b : Nat) (origSize newSize u : Int)
    (hu : 0 ≤ u + (newSize - origSize)) :
    ((runVOps ⟨[(orig, a), (temp, b)], ⟨nm, orig, origSize, ct⟩, u⟩
        (process_video_background_ops true orig temp orig newSize origSize)).fs =
          [(orig, b)] ∧
      (runVOps ⟨[(orig, a), (temp, b)], ⟨nm, orig, origSize, ct⟩, u⟩
        (process_video_background_ops true orig temp orig newSize origSize)).filerec =
          ⟨nm, orig, newSize, "video/mp4"⟩ ∧
      (runVOps ⟨[(orig, a), (temp, b)], ⟨nm, orig, origSize, ct⟩, u⟩
        (process_video_background_ops true orig temp orig newSize origSize)).storageUsed =
          u + (newSize - origSize)) ∧
    runVOps ⟨[(orig, a), (temp, b)], ⟨nm, orig, origSize, ct⟩, u⟩
        (process_video_background_ops false orig temp orig newSize origSize) =
      ⟨[(orig, a)], ⟨nm, orig, origSize, ct⟩, u⟩ := by
  have h1 : fsRemove [(orig, a), (temp, b)] orig = [(temp, b)] := by
    simp [fsRemove, hot]
  have h2 : fsLookup [(temp, b)] temp = some b := by
    simp [fsLookup]
  have e1 : applyVOp ⟨[(orig, a), (temp, b)], ⟨nm, orig, origSize, ct⟩, u⟩
      (.removeFile orig) = ⟨[(temp, b)], ⟨nm, orig, origSize, ct⟩, u⟩ := by
    simp only [applyVOp]
    rw [h1]
  have e2 : applyVOp ⟨[(temp, b)], ⟨nm, orig, origSize, ct⟩, u⟩
      (.renameFile temp orig) = ⟨[(orig, b)], ⟨nm, orig, origSize, ct⟩, u⟩ := by
    simp only [applyVOp]
    rw [h2]
    simp [fsRemove]
  have e3 : applyVOp ⟨[(orig, b)], ⟨nm, orig, origSize, ct⟩, u⟩
      (.saveRecord orig newSize "video/mp4") =
      ⟨[(orig, b)], ⟨nm, orig, newSize, "video/mp4"⟩, u⟩ := rfl
  have hstep : runVOps ⟨[(orig, a), (temp, b)], ⟨nm, orig, origSize, ct⟩, u⟩
      (process_video_background_ops true orig temp orig newSize origSize) =
      applyVOp ⟨[(orig, b)], ⟨nm, orig, newSize, "video/mp4"⟩, u⟩
        (.adjStorage (newSize - origSize)) := by
    show runVOps _ [VOp.removeFile orig, VOp.renameFile temp orig,
      VOp.saveRecord orig newSize "video/mp4", VOp.adjStorage (newSize - origSize)] = _
    rw [runVOps_vcons, e1, runVOps_vcons, e2, runVOps_vcons, e3, runVOps_vcons]
    rfl
  constructor
  · rw [hstep]
    by_cases hd : newSize - origSize = 0
    · refine ⟨?_, ?_, ?_⟩ <;> simp only [applyVOp, if_pos hd] <;> try rfl
      omega
    · refine ⟨?_, ?_, ?_⟩ <;> simp only [applyVOp, if_neg hd] <;> try rfl
      show update_storage_used u (abs (newSize - origSize))
          (decide (newSize - origSize < 0)) = u + (newSize - origSize)
      unfold update_storage_used
      by_cases hlt : newSize - origSize < 0
      · rw [if_pos (by simpa using hlt), abs_of_neg hlt]
        omega
      · rw [if_neg (by simpa using hlt), abs_of_nonneg (by omega)]
  · show runVOps _ [VOp.removeFile temp] = _
    have h4 : fsRemove [(orig, a), (temp, b)] temp = [(orig, a)] := by
      simp [fsRemove, hot.symm]
    show applyVOp _ (VOp.removeFile temp) = _
    simp only [applyVOp]
    rw [h4]

/-- Witness for the amended C7 at the concrete swap of a 1000-byte
`video.avi` (content id 0) for a 600-byte encoded file (content id 1). -/
theorem C7_amended_witness :
    ("m/video_converting.mp4" : String) ≠ "m/video.avi" ∧
    (0 : Int) ≤ 2000 + (600 - 1000) ∧
    (((runVOps ⟨[("m/video.avi", 0), ("m/video_converting.mp4", 1)],
          ⟨"video.avi", "m/video.avi", 1000, "video/x-msvideo"⟩, 2000⟩
        (process_video_background_ops true "m/video.avi" "m/video_converting.mp4"
          "m/video.avi" 600 1000)).fs = [("m/video.avi", 1)] ∧
      (runVOps ⟨[("m/video.avi", 0), ("m/video_converting.mp4", 1)],
          ⟨"video.avi", "m/video.avi", 1000, "video/x-msvideo"⟩, 2000⟩
        (process_video_background_ops true "m/video.avi" "m/video_converting.mp4"
          "m/video.avi" 600 1000)).filerec =
          ⟨"video.avi", "m/video.avi", 600, "video/mp4"⟩ ∧
      (runVOps ⟨[("m/video.avi", 0), ("m/video_converting.mp4", 1)],
          ⟨"video.avi", "m/video.avi", 1000, "video/x-msvideo"⟩, 2000⟩
        (process_video_background_ops true "m/video.avi" "m/video_converting.mp4"
          "m/video.avi" 600 1000)).storageUsed = 2000 + (600 - 1000)) ∧
    runVOps ⟨[("m/video.avi", 0), ("m/video_converting.mp4", 1)],
          ⟨"video.avi", "m/video.avi", 1000, "video/x-msvideo"⟩, 2000⟩
        (process_video_background_ops false "m/video.avi" "m/video_converting.mp4"
          "m/video.avi" 600 1000) =
      ⟨[("m/video.avi", 0)], ⟨"video.avi", "m/video.avi", 1000, "video/x-msvideo"⟩, 2000⟩) :=
  ⟨by decide, by decide,
    C7_amended_swap "m/video.avi" "m/video_converting.mp4" "video.avi" "video/x-msvideo"
      (by decide) 0 1 1000 600 2000 (by decide)⟩

theorem readWindow_nonpos (content : List Nat) (cs : Int) (pos : Nat) (rem : Int)
    (h : rem ≤ 0) : readWindow content cs pos rem = [] := by
  rw [readWindow]
  simp [h]

theorem readWindow_eq_take (content : List Nat) (cs : Int) (hcs : 1 ≤ cs) :
    ∀ (fuel : Nat) (pos : Nat) (rem : Int), rem.toNat = fuel → 0 ≤ rem →
      pos + rem.toNat ≤ content.length →
      readWindow content cs pos rem = (content.drop pos).take rem.toNat := by
  intro fuel
  induction fuel using Nat.strong_induction_on with
  | _ fuel ih =>
      intro pos rem hf hr hfit
      by_cases h0 : rem ≤ 0
      · have hz : rem = 0 := le_antisymm h0 hr
        subst hz
        rw [readWindow_nonpos content cs pos 0 le_rfl]
        simp
      · rw [readWindow, dif_neg h0]
        have hrem1 : (1 : Int) ≤ rem := by omega
        have hmin1 : (1 : Int) ≤ min cs rem := le_min hcs hrem1
        have hminle : min cs rem ≤ rem := min_le_right cs rem
        have hck : ((content.drop pos).take (min cs rem).toNat).length = (min cs rem).toNat := by
          rw [List.length_take, List.length_drop]
          omega
        have hne : ((content.drop pos).take (min cs rem).toNat) ≠ [] := by
          intro hc
          rw [hc] at hck
          simp at hck
          omega
        rw [dif_neg hne, hck]
        have hrec := ih (rem - ((min cs rem).toNat : Int)).toNat (by omega)
          (pos + (min cs rem).toNat) (rem - ((min cs rem).toNat : Int)) rfl
          (by omega) (by omega)
        rw [hrec]
        have hsplit : rem.toNat = (min cs rem).toNat + (rem - ((min cs rem).toNat : Int)).toNat := by
          omega
        rw [hsplit, List.take_add, List.drop_drop]

/-- C8: for an artifact of size S and a well-formed `Range: bytes=start-end`
header with start < S (and start ≤ end, as HTTP well-formedness requires),
the response has status 206, `end` clamped to S-1, `Content-Range:
bytes start-end/S`, `Content-Length = end - start + 1`, and the body streams
exactly those `end - start + 1` bytes of the file. -/
theorem C8_range_request_semantics (content : List Nat) (start endv : Nat)
    (hs : start < content.length) (hse : start ≤ endv) :
    create_streaming_response content (RangeHeader.okRange start (some endv)) =
      RangeResult.resp ⟨206,
        some (start, ((min endv (content.length - 1) : Nat) : Int), content.length),
        ((min endv (content.length - 1) - start + 1 : Nat) : Int),
        (content.drop start).take (min endv (content.length - 1) - start + 1), true⟩ ∧
    ((content.drop start).take (min endv (content.length - 1) - start + 1)).length =
      min endv (content.length - 1) - start + 1 := by
  have hE : min ((endv : Nat) : Int) (((content.length : Nat) : Int) - 1) =
      ((min endv (content.length - 1) : Nat) : Int) := by omega
  have hrem : ((min endv (content.length - 1) : Nat) : Int) - (start : Int) + 1 =
      ((min endv (content.length - 1) - start + 1 : Nat) : Int) := by omega
  constructor
  · simp only [create_streaming_response]
    rw [hE, hrem]
    have hcs : (1 : Int) ≤ min 65536 ((min endv (content.length - 1) - start + 1 : Nat) : Int) := by
      omega
    have hbody := readWindow_eq_take content
      (min 65536 ((min endv (content.length - 1) - start + 1 : Nat) : Int)) hcs
      ((min endv (content.length - 1) - start + 1 : Nat) : Int).toNat start
      ((min endv (content.length - 1) - start + 1 : Nat) : Int) rfl (by omega) (by omega)
    rw [hbody]
    simp
  · rw [List.length_take, List.length_drop]
    omega

/-- Witness for C8 at the spec's own example: `bytes=100-199` on a 1000-byte
artifact yields 206, `Content-Range: bytes 100-199/1000`, `Content-Length`
100 and a body of exactly 100 bytes. -/
theorem C8_witness :
    100 < (List.replicate 1000 (0 : Nat)).length ∧ (100 : Nat) ≤ 199 ∧
    create_streaming_response (List.replicate 1000 (0 : Nat))
        (RangeHeader.okRange 100 (some 199)) =
      RangeResult.resp ⟨206, some (100, 199, 1000), 100,
        ((List.replicate 1000 (0 : Nat)).drop 100).take 100, true⟩ ∧
    (((List.replicate 1000 (0 : Nat)).drop 100).take 100).length = 100 := by
  have hlen : (List.replicate 1000 (0 : Nat)).length = 1000 := List.length_replicate 1000 0
  have h := C8_range_request_semantics (List.replicate 1000 (0 : Nat)) 100 199
    (by rw [hlen]; omega) (by omega)
  have h1 := h.1
  rw [hlen] at h1
  have hmin : min 199 (1000 - 1) = 199 := by omega
  rw [hmin] at h1
  norm_num at h1
  refine ⟨by rw [hlen]; omega, by omega, ?_, ?_⟩
  · exact h1
  · rw [List.length_take, List.length_drop, hlen]
    omega

/-- C9: a range request whose start offset lies at or beyond the artifact's
size is NOT rejected: on a 1000-byte artifact, `bytes=1500-1600` receives
status 206 with `Content-Range: bytes 1500-999/1000` and a negative
`Content-Length` of -500; the streamed body itself is empty (the read loop's
`while remaining > 0` guard never fires), so no negative-length stream is
produced, but the negative `Content-Length` header and the 206 status
contradict the claimed rejection. -/
theorem C9_start_beyond_size_not_rejected :
    create_streaming_response (List.replicate 1000 (0 : Nat))
        (RangeHeader.okRange 1500 (some 1600)) =
      RangeResult.resp ⟨206, some (1500, 999, 1000), -500, [], true⟩ ∧
    (-500 : Int) < 0 ∧ (206 : Nat) ≠ 400 ∧ (206 : Nat) ≠ 404 := by
  refine ⟨?_, by decide, by decide, by decide⟩
  simp only [create_streaming_response, List.length_replicate]
  norm_num
  rw [readWindow_nonpos]
  norm_num

/-- C10: the owner's storage-used counter never becomes negative — from any
non-negative `storage_used`, `update_storage_used` with a non-negative size
leaves it non-negative on both the addition and the (zero-clamped)
subtraction paths. -/
theorem C10_storage_used_nonneg (used size : Int) (subtract : Bool)
    (hu : 0 ≤ used) (hs : 0 ≤ size) :
    0 ≤ update_storage_used used size subtract := by
  unfold update_storage_used
  cases subtract <;> simp <;> omega

/-- Witness for C10 on both paths, including a subtraction larger than the
current counter (clamped to zero). -/
theorem C10_witness :
    ((0 : Int) ≤ 5 ∧ (0 : Int) ≤ 9) ∧
    0 ≤ update_storage_used 5 9 true ∧
    0 ≤ update_storage_used 5 9 false :=
  ⟨⟨by decide, by decide⟩,
    C10_storage_used_nonneg 5 9 true (by decide) (by decide),
    C10_storage_used_nonneg 5 9 false (by decide) (by decide)⟩

end Tat1
